import Mathlib

/-!
Shallow embedding of the DNS message parser in `src/main.rs` of
carlosmn/dns-server, together with theorems settling the specification
claims about it.

Modelling conventions:
* Rust byte buffers (`&[u8]`) become `List Nat`; byte values are assumed
  `< 256` where it matters and theorems carry that hypothesis.
* Rust operations that can panic (out-of-bounds indexing and slicing) are
  modelled with `Option`: a result of `none` at the outer layer means the
  Rust code panics on that input.  `parse_question` in the source returns
  `Option<Question>`, so its model returns `Option (Option Question)`:
  the outer layer is panic / no panic, the inner layer is the source's
  own `Option` (with `none` meaning an unrecognized type or class code).
* `Cow<str>` labels produced by `String::from_utf8_lossy` become `String`
  via `utf8Lossy`, a total function implementing the lossy UTF-8 decoding
  of the Rust standard library (U+FFFD substitution of maximal subparts).
-/

namespace Dns

/-- Rust `enum QR` from the source. -/
inductive QR where
  | Query
  | Response
  deriving DecidableEq, Repr

/-- Rust `enum Opcode` from the source. -/
inductive Opcode where
  | Query
  | IQuery
  | Status
  | Reserved
  | Notify
  | Update
  | Invalid
  deriving DecidableEq, Repr

/-- Rust `enum QType` from the source. -/
inductive QType where
  | A
  | NS
  | CNAME
  | SOA
  | WKS
  | PTR
  | MX
  | SRV
  | AAAA
  | ANY
  deriving DecidableEq, Repr

/-- Rust `enum QClass` from the source. -/
inductive QClass where
  | IN
  deriving DecidableEq, Repr

/-- Rust `struct Header` from the source. -/
structure Header where
  id : Nat
  qr : QR
  opcode : Opcode
  aa : Bool
  tc : Bool
  rd : Bool
  qdcount : Nat
  ancount : Nat
  nscount : Nat
  arcount : Nat
  deriving DecidableEq, Repr

/-- Model of `fn parse_u16(buf: &[u8]) -> u16` from the source: big-endian
read of two bytes.  `none` models the panic when the slice has fewer than
two bytes. -/
def parse_u16 (buf : List Nat) : Option Nat := do
  let higher ← buf[0]?
  let lower ← buf[1]?
  pure ((higher <<< 8) ||| lower)

/-- Model of `fn parse_qr(n: u8) -> QR` from the source. -/
def parse_qr (n : Nat) : QR :=
  if n &&& 0b10000000 = 0 then QR.Query else QR.Response

/-- Model of `fn parse_opcode(n: u8) -> Opcode` from the source: the byte
is masked with `0b01111000` (not right-shifted) and the masked value is
matched against the literals 0..5. -/
def parse_opcode (n : Nat) : Opcode :=
  match n &&& 0b01111000 with
  | 0 => Opcode.Query
  | 1 => Opcode.IQuery
  | 2 => Opcode.Status
  | 3 => Opcode.Reserved
  | 4 => Opcode.Notify
  | 5 => Opcode.Update
  | _ => Opcode.Invalid

/-- Model of `fn parse_authoritative(n: u8) -> bool` from the source:
`n & 0b00000100 == 1`. -/
def parse_authoritative (n : Nat) : Bool :=
  n &&& 0b00000100 = 1

/-- Model of `fn parse_truncated(n: u8) -> bool` from the source:
`n & 0b00000010 == 1`. -/
def parse_truncated (n : Nat) : Bool :=
  n &&& 0b00000010 = 1

/-- Model of `fn parse_recursion(n: u8) -> bool` from the source:
`n & 0b00000001 == 1`. -/
def parse_recursion (n : Nat) : Bool :=
  n &&& 0b00000001 = 1

/-- Model of `impl Header { fn parse(buf: &[u8]) -> Header }` from the
source.  The source indexes `buf` without bounds checks, so a buffer
shorter than 12 bytes makes some field read panic; that panic is modelled
by `none`. -/
def Header.parse (buf : List Nat) : Option Header := do
  let id ← parse_u16 buf
  let b2 ← buf[2]?
  let qd ← parse_u16 (buf.drop 4)
  let an ← parse_u16 (buf.drop 6)
  let ns ← parse_u16 (buf.drop 8)
  let ar ← parse_u16 (buf.drop 10)
  pure { id := id
         qr := parse_qr b2
         opcode := parse_opcode b2
         aa := parse_authoritative b2
         tc := parse_truncated b2
         rd := parse_recursion b2
         qdcount := qd
         ancount := an
         nscount := ns
         arcount := ar }

/-- Model of `impl QType { fn from_u16(n: u16) -> Option<QType> }` from
the source: a match on the literals 1, 2, 5, 6, 11, 12, 15, 28, 33, 255,
everything else mapping to `None`. -/
def QType.from_u16 (n : Nat) : Option QType :=
  if n = 1 then some QType.A
  else if n = 2 then some QType.NS
  else if n = 5 then some QType.CNAME
  else if n = 6 then some QType.SOA
  else if n = 11 then some QType.WKS
  else if n = 12 then some QType.PTR
  else if n = 15 then some QType.MX
  else if n = 28 then some QType.AAAA
  else if n = 33 then some QType.SRV
  else if n = 255 then some QType.ANY
  else none

/-- Model of `impl QClass { fn from_u16(n: u16) -> Option<QClass> }` from
the source: only 1 maps to `IN`. -/
def QClass.from_u16 (n : Nat) : Option QClass :=
  if n = 1 then some QClass.IN else none

/-- The Unicode replacement character U+FFFD emitted by lossy UTF-8
decoding. -/
def replChar : Char := Char.ofNat 0xFFFD

/-- Whether a byte is a UTF-8 continuation byte (`0x80..=0xBF`). -/
def isCont (b : Nat) : Bool := 0x80 ≤ b && b ≤ 0xBF

/-- Allowed range of the first continuation byte of a 3-byte sequence,
depending on the leading byte (surrogate and overlong exclusion), as in
Rust's UTF-8 validation. -/
def validCont3 (b0 b1 : Nat) : Bool :=
  if b0 = 0xE0 then 0xA0 ≤ b1 && b1 ≤ 0xBF
  else if b0 = 0xED then 0x80 ≤ b1 && b1 ≤ 0x9F
  else isCont b1

/-- Allowed range of the first continuation byte of a 4-byte sequence,
depending on the leading byte, as in Rust's UTF-8 validation. -/
def validCont4 (b0 b1 : Nat) : Bool :=
  if b0 = 0xF0 then 0x90 ≤ b1 && b1 ≤ 0xBF
  else if b0 = 0xF4 then 0x80 ≤ b1 && b1 ≤ 0x8F
  else isCont b1

/-- Lossy UTF-8 decoding of a byte list into characters, following
`String::from_utf8_lossy`: well-formed sequences decode to their scalar
value, each maximal ill-formed subpart is replaced by U+FFFD, and the
decoding is total (it never fails, whatever the input bytes).  The first
argument is fuel for structural recursion; every step consumes at least
one input byte, so fuel equal to the list length (as supplied by
`utf8LossyChars`) is never exhausted. -/
def utf8LossyWithFuel : Nat → List Nat → List Char
  | 0, _ => []
  | _, [] => []
  | fuel + 1, b0 :: rest =>
    if b0 < 0x80 then
      Char.ofNat b0 :: utf8LossyWithFuel fuel rest
    else if 0xC2 ≤ b0 ∧ b0 ≤ 0xDF then
      match rest with
      | [] => [replChar]
      | b1 :: rest2 =>
        if isCont b1 then
          Char.ofNat (((b0 - 0xC0) <<< 6) ||| (b1 - 0x80)) :: utf8LossyWithFuel fuel rest2
        else
          replChar :: utf8LossyWithFuel fuel (b1 :: rest2)
    else if 0xE0 ≤ b0 ∧ b0 ≤ 0xEF then
      match rest with
      | [] => [replChar]
      | b1 :: rest2 =>
        if validCont3 b0 b1 then
          match rest2 with
          | [] => [replChar]
          | b2 :: rest3 =>
            if isCont b2 then
              Char.ofNat (((b0 - 0xE0) <<< 12) ||| ((b1 - 0x80) <<< 6) ||| (b2 - 0x80))
                :: utf8LossyWithFuel fuel rest3
            else
              replChar :: utf8LossyWithFuel fuel (b2 :: rest3)
        else
          replChar :: utf8LossyWithFuel fuel (b1 :: rest2)
    else if 0xF0 ≤ b0 ∧ b0 ≤ 0xF4 then
      match rest with
      | [] => [replChar]
      | b1 :: rest2 =>
        if validCont4 b0 b1 then
          match rest2 with
          | [] => [replChar]
          | b2 :: rest3 =>
            if isCont b2 then
              match rest3 with
              | [] => [replChar]
              | b3 :: rest4 =>
                if isCont b3 then
                  Char.ofNat (((b0 - 0xF0) <<< 18) ||| ((b1 - 0x80) <<< 12) |||
                      ((b2 - 0x80) <<< 6) ||| (b3 - 0x80))
                    :: utf8LossyWithFuel fuel rest4
                else
                  replChar :: utf8LossyWithFuel fuel (b3 :: rest4)
            else
              replChar :: utf8LossyWithFuel fuel (b2 :: rest3)
        else
          replChar :: utf8LossyWithFuel fuel (b1 :: rest2)
    else
      replChar :: utf8LossyWithFuel fuel rest

/-- Lossy UTF-8 decoding of a byte list into characters. -/
def utf8LossyChars (l : List Nat) : List Char := utf8LossyWithFuel l.length l

/-- Rust `String::from_utf8_lossy` as a total `List Nat → String`. -/
def utf8Lossy (l : List Nat) : String := String.mk (utf8LossyChars l)

/-- Rust `struct Question` from the source.  `qname` holds the decoded
labels, `len` is the source's `len` field (commented there as the length
of the record in the buffer). -/
structure Question where
  qname : List String
  qtype : QType
  qclass : QClass
  len : Nat
  deriving DecidableEq, Repr

/-- Model of `fn parse_question_part(buf: &[u8]) -> (usize, Option<Cow<str>>)`
from the source.  `buf[0]` panics on an empty slice and `&buf[1..len+1]`
panics when `len + 1 > buf.len()`; both panics are modelled by the outer
`none`. -/
def parse_question_part (buf : List Nat) : Option (Nat × Option String) := do
  let len ← buf[0]?
  if len = 0 then
    pure (0, none)
  else if len + 1 ≤ buf.length then
    pure (len, some (utf8Lossy ((buf.drop 1).take len)))
  else
    none

/-- The label loop of `fn parse_question`: starting from the front of
`buf`, repeatedly read a length-prefixed label until a zero length byte,
returning the decoded labels and the final value of the source's `off`
variable (the total number of bytes consumed by the labels, which leaves
`off` pointing at the zero terminator, since the source breaks out of the
loop without advancing `off` on the terminator).  `none` models a panic
inside `parse_question_part` (in particular on an empty suffix, where
`buf[0]` panics). -/
def parse_labels : List Nat → Option (List String × Nat)
  | [] => none
  | b :: rest =>
    match parse_question_part (b :: rest) with
    | none => none
    | some (_, none) => some ([], 0)
    | some (n, some s) =>
      match parse_labels (List.drop (n + 1) (b :: rest)) with
      | none => none
      | some (ls, off) => some (s :: ls, (n + 1) + off)
termination_by l => l.length
decreasing_by
  simp [List.length_drop]
  omega

/-- Model of `fn parse_question(buf: &[u8]) -> Option<Question>` from the
source.  The outer `Option` layer models panics (out-of-bounds slicing);
the inner layer is the source's own return value, `none` when the type or
class code is unrecognized.  Evaluation order follows the source: labels,
then the type code at `off + 1` (returning early on an unknown type),
then the class code at `off + 3`. -/
def parse_question (buf : List Nat) : Option (Option Question) := do
  let (v, off) ← parse_labels buf
  let t ← parse_u16 (buf.drop (off + 1))
  match QType.from_u16 t with
  | none => pure none
  | some qtype => do
    let c ← parse_u16 (buf.drop (off + 3))
    match QClass.from_u16 c with
    | none => pure none
    | some qclass =>
      pure (some { qname := v, qtype := qtype, qclass := qclass, len := off + 4 })

/-- Wire encoding of a domain name's labels (without the zero
terminator), from the RFC 1035 wire format the source consumes: each
label as a length byte followed by its bytes. -/
def encodeName : List (List Nat) → List Nat
  | [] => []
  | l :: ls => l.length :: (l ++ encodeName ls)

/-- Wire encoding of a 12-byte DNS header with the given 16-bit fields
(id and the four counters, big-endian) and raw flag bytes `b2`/`b3`,
from the wire format the source consumes. -/
def encodeHeaderBytes (i b2 b3 qd an ns ar : Nat) : List Nat :=
  [i >>> 8, i &&& 0xFF, b2, b3, qd >>> 8, qd &&& 0xFF, an >>> 8, an &&& 0xFF,
   ns >>> 8, ns &&& 0xFF, ar >>> 8, ar &&& 0xFF]

/-- Modelled from the spec: the mapping of the masked opcode value given
in the specification, "0 ⇒ Query, 1 ⇒ InverseQuery, 2 ⇒ Status,
3 ⇒ Reserved, 4 ⇒ Notify, 5 ⇒ Update, and any other value ⇒ Invalid",
stated independently of the source's `parse_opcode` so the two can be
compared. -/
def specOpcodeMap (m : Nat) : Opcode :=
  if m = 0 then Opcode.Query
  else if m = 1 then Opcode.IQuery
  else if m = 2 then Opcode.Status
  else if m = 3 then Opcode.Reserved
  else if m = 4 then Opcode.Notify
  else if m = 5 then Opcode.Update
  else Opcode.Invalid

/-! ### Helper lemmas -/

theorem parse_question_part_cons (b : Nat) (rest : List Nat) :
    parse_question_part (b :: rest) =
      (if b = 0 then some (0, none)
       else if b ≤ rest.length then some (b, some (utf8Lossy (rest.take b)))
       else none) := by
  by_cases hb : b = 0
  · simp [parse_question_part, hb]
  · by_cases hl : b ≤ rest.length
    · have h1 : b + 1 ≤ (b :: rest).length := by simp; omega
      simp [parse_question_part, hb, hl, h1]
    · have h1 : ¬ (b + 1 ≤ (b :: rest).length) := by simp; omega
      simp [parse_question_part, hb, hl, h1]

theorem parse_labels_nil : parse_labels [] = none := by rw [parse_labels]

theorem parse_labels_zero (rest : List Nat) :
    parse_labels (0 :: rest) = some ([], 0) := by
  rw [parse_labels, parse_question_part_cons]
  simp

theorem parse_labels_pos (b : Nat) (rest : List Nat) (hb : b ≠ 0)
    (hlen : b ≤ rest.length) :
    parse_labels (b :: rest) =
      (parse_labels (rest.drop b)).map
        (fun p => (utf8Lossy (rest.take b) :: p.1, (b + 1) + p.2)) := by
  rw [parse_labels, parse_question_part_cons]
  simp [hb, hlen]
  cases parse_labels (rest.drop b) <;> simp

theorem parse_labels_oob (b : Nat) (rest : List Nat) (hb : b ≠ 0)
    (hlen : rest.length < b) :
    parse_labels (b :: rest) = none := by
  rw [parse_labels, parse_question_part_cons]
  have h1 : ¬ b ≤ rest.length := by omega
  simp [hb, h1]

/-- The label loop on a well-formed name: for any sequence of non-empty
labels followed by the zero terminator, `parse_labels` decodes exactly
those labels and leaves the offset at the terminator position (the length
of the encoded labels). -/
theorem parse_labels_encodeName (labels : List (List Nat)) (rest : List Nat)
    (wf : ∀ l ∈ labels, 0 < l.length) :
    parse_labels (encodeName labels ++ 0 :: rest) =
      some (labels.map utf8Lossy, (encodeName labels).length) := by
  induction labels with
  | nil => simp [encodeName, parse_labels_zero]
  | cons l ls ih =>
    have hl : 0 < l.length := wf l (by simp)
    have hwf : ∀ x ∈ ls, 0 < x.length := fun x hx => wf x (by simp [hx])
    rw [encodeName]
    simp only [List.cons_append, List.append_assoc]
    rw [parse_labels_pos l.length (l ++ (encodeName ls ++ 0 :: rest)) (by omega)
        (by simp [List.length_append])]
    rw [List.take_left' rfl, List.drop_left' rfl]
    rw [ih hwf]
    simp [encodeName, List.length_append]
    omega

theorem parse_u16_cons (a b : Nat) (r : List Nat) :
    parse_u16 (a :: b :: r) = some ((a <<< 8) ||| b) := by
  simp [parse_u16]

/-- Big-endian split and re-read: splitting any `Nat` into its high byte
(shift right by 8) and low byte (mask with 0xFF) and recombining them by
the source's `(high << 8) | low` formula gives the value back. -/
theorem u16_roundtrip (v : Nat) : ((v >>> 8) <<< 8) ||| (v &&& 0xFF) = v := by
  have h255 : v &&& 0xFF = v % 256 := by
    have h := Nat.and_pow_two_sub_one_eq_mod v 8
    norm_num at h
    exact h
  have hsr : v >>> 8 = v / 256 := by
    rw [Nat.shiftRight_eq_div_pow]
  have hsl : (v / 256) <<< 8 = 256 * (v / 256) := by
    rw [Nat.shiftLeft_eq]; norm_num [Nat.mul_comm]
  rw [hsr, h255, hsl]
  have hor := Nat.mul_add_lt_is_or (b := v % 256) (i := 8) (by norm_num [Nat.mod_lt v]) (v / 256)
  norm_num at hor
  rw [← hor]
  exact Nat.div_add_mod v 256

theorem QType_from_u16_eq_none_iff (n : Nat) :
    QType.from_u16 n = none ↔ ¬ n ∈ ([1, 2, 5, 6, 11, 12, 15, 28, 33, 255] : List Nat) := by
  unfold QType.from_u16
  split_ifs <;> simp_all

theorem QClass_from_u16_eq_none_iff (n : Nat) :
    QClass.from_u16 n = none ↔ n ≠ 1 := by
  unfold QClass.from_u16
  split_ifs <;> simp_all

/-! ### Claim theorems -/

/-- Claim C1 (code bug): the source's own comment documents `len` as the
length of the record in the buffer, but at the 5-byte question
`[0x00, 0x00, 0x01, 0x00, 0x01]` (empty name: just the zero terminator,
then type A and class IN) `parse_question` reports `len = 4`, one byte
short of the 5 bytes the encoded question occupies, because the loop
leaves `off` at the terminator instead of one past it. -/
theorem claim1_len_one_byte_short :
    parse_question [0, 0, 1, 0, 1] =
      some (some { qname := [], qtype := QType.A, qclass := QClass.IN, len := 4 }) ∧
    ([0, 0, 1, 0, 1] : List Nat).length = 5 := by
  refine ⟨?_, rfl⟩
  simp [parse_question, parse_labels_zero, parse_u16, QType.from_u16, QClass.from_u16]

/-- Claim C2 (code bug): the masked-equals-1 comparison is NOT correct
for all three flags.  `parse_authoritative` masks with `0b100`, so on a
byte with that bit set the masked value is 4, which is compared `== 1`
and yields `false`; likewise `parse_truncated` on `0b010` yields `false`.
Only `parse_recursion` (mask `0b001`) behaves as the claim states. -/
theorem claim2_flag_comparison_eval :
    parse_authoritative 0b00000100 = false ∧
    parse_truncated 0b00000010 = false ∧
    parse_recursion 0b00000001 = true ∧
    parse_recursion 0b00000000 = false := by decide

/-- Claim C3 (counterexample): on the buffer encoding the labels
["example", "com"], the zero terminator sits at index 12, and the label
loop exits with offset 12 — the terminator position itself — not
`terminator_position + 1 = 13` as the claim states. -/
theorem claim3_counterexample :
    parse_labels [7, 101, 120, 97, 109, 112, 108, 101, 3, 99, 111, 109, 0, 0, 1, 0, 1] =
      some (["example", "com"], 12) ∧
    parse_labels [7, 101, 120, 97, 109, 112, 108, 101, 3, 99, 111, 109, 0, 0, 1, 0, 1] ≠
      some (["example", "com"], 12 + 1) := by
  have h : parse_labels [7, 101, 120, 97, 109, 112, 108, 101, 3, 99, 111, 109, 0, 0, 1, 0, 1] =
      some (["example", "com"], 12) := by
    have := parse_labels_encodeName [[101, 120, 97, 109, 112, 108, 101], [99, 111, 109]]
      [0, 1, 0, 1] (by intro l hl; simp at hl; rcases hl with h | h <;> simp [h])
    simpa [encodeName] using this
  exact ⟨h, by rw [h]; simp⟩

/-- Claim C3 as amended: for every question buffer whose name encodes the
labels ["example", "com"] followed by the zero terminator (at index 12),
the label loop yields qname = ["example", "com"] and its offset variable
at loop exit equals the terminator position itself (12), pointing at the
zero byte, not one past it. -/
theorem claim3_amended (rest : List Nat) :
    parse_labels ([7, 101, 120, 97, 109, 112, 108, 101, 3, 99, 111, 109] ++ 0 :: rest) =
      some (["example", "com"], 12) ∧
    ([7, 101, 120, 97, 109, 112, 108, 101, 3, 99, 111, 109] : List Nat).length = 12 := by
  refine ⟨?_, rfl⟩
  have := parse_labels_encodeName [[101, 120, 97, 109, 112, 108, 101], [99, 111, 109]] rest
    (by intro l hl; simp at hl; rcases hl with h | h <;> simp [h])
  simpa [encodeName] using this

/-- Claim C4 (counterexample): on the 12-byte header input of the claim,
byte 2 is 0x01 and the source computes the recursion-desired flag from
bit 0 of byte 2 (not byte 3), so the decoded `rd` is `true`, not `false`
as the claim states. -/
theorem claim4_counterexample :
    (Header.parse [0x12, 0x34, 0x01, 0x00, 0, 1, 0, 0, 0, 0, 0, 0]).map Header.rd =
      some true ∧
    (Header.parse [0x12, 0x34, 0x01, 0x00, 0, 1, 0, 0, 0, 0, 0, 0]).map Header.rd ≠
      some false := by decide

/-- Claim C4 as amended: for the 12-byte input
`[0x12, 0x34, 0x01, 0x00, 0, 1, 0, 0, 0, 0, 0, 0]`, `Header.parse`
returns id = 0x1234, direction = Query, recursion-desired = TRUE (the
source reads bit 0 of byte 2, which is 0x01), and question-count = 1;
and for the appended question bytes
`7 'e' 'x' 'a' 'm' 'p' 'l' 'e' 3 'c' 'o' 'm' 0 0x00 0x01 0x00 0x01`,
`parse_question` returns qname = ["example", "com"], query-type = A,
query-class = IN. -/
theorem claim4_amended :
    Header.parse [0x12, 0x34, 0x01, 0x00, 0, 1, 0, 0, 0, 0, 0, 0] =
      some { id := 0x1234, qr := QR.Query, opcode := Opcode.Query, aa := false,
             tc := false, rd := true, qdcount := 1, ancount := 0, nscount := 0,
             arcount := 0 } ∧
    parse_question [7, 101, 120, 97, 109, 112, 108, 101, 3, 99, 111, 109, 0, 0, 1, 0, 1] =
      some (some { qname := ["example", "com"], qtype := QType.A, qclass := QClass.IN,
                   len := 16 }) := by
  refine ⟨by decide, ?_⟩
  have hname : parse_labels [7, 101, 120, 97, 109, 112, 108, 101, 3, 99, 111, 109, 0, 0, 1, 0, 1] =
      some (["example", "com"], 12) := by
    have := parse_labels_encodeName [[101, 120, 97, 109, 112, 108, 101], [99, 111, 109]]
      [0, 1, 0, 1] (by intro l hl; simp at hl; rcases hl with h | h <;> simp [h])
    simpa [encodeName] using this
  simp [parse_question, hname, parse_u16, QType.from_u16, QClass.from_u16]

/-- Claim C5 (code bug): on truncated input the source does not return a
`TruncatedHeader` / `TruncatedQuestion` error — no such error values
exist in the code.  Instead the unchecked indexing panics, modelled here
by `none`: an 11-byte buffer makes `Header.parse` panic, a question whose
name runs past the buffer end panics in the label loop, and a question
whose class field runs past the end panics in `parse_u16`. -/
theorem claim5_truncation_panics :
    Header.parse (List.replicate 11 0) = none ∧
    parse_question [3, 99, 111, 109] = none ∧
    parse_question [0, 0, 1] = none := by
  refine ⟨by decide, ?_, ?_⟩
  · simp [parse_question, parse_labels_pos, parse_labels_nil]
  · simp [parse_question, parse_labels_zero, parse_u16, QType.from_u16]

/-- Claim C6: for every question buffer with a well-formed, in-bounds
name (non-empty labels of at most 255 bytes, zero-terminated) and at
least 4 bytes after the terminator, `parse_question` never panics, and it
fails (returns no Question) exactly when the 16-bit type code is not in
{1, 2, 5, 6, 11, 12, 15, 28, 33, 255} or the 16-bit class code is not 1;
in particular type 1 maps to A, type 28 maps to AAAA, and class 1 maps
to IN. -/
theorem claim6_type_class_gate (labels : List (List Nat)) (t1 t2 c1 c2 : Nat)
    (rest : List Nat) (wf : ∀ l ∈ labels, 0 < l.length ∧ l.length ≤ 255)
    (ht1 : t1 < 256) (ht2 : t2 < 256) (hc1 : c1 < 256) (hc2 : c2 < 256) :
    (parse_question (encodeName labels ++ 0 :: t1 :: t2 :: c1 :: c2 :: rest)).isSome = true ∧
    (parse_question (encodeName labels ++ 0 :: t1 :: t2 :: c1 :: c2 :: rest) = some none ↔
      ¬ (((t1 <<< 8) ||| t2) ∈ ([1, 2, 5, 6, 11, 12, 15, 28, 33, 255] : List Nat) ∧
         ((c1 <<< 8) ||| c2) = 1)) ∧
    QType.from_u16 1 = some QType.A ∧ QType.from_u16 28 = some QType.AAAA ∧
    QClass.from_u16 1 = some QClass.IN := by
  have hname := parse_labels_encodeName labels (t1 :: t2 :: c1 :: c2 :: rest)
    (fun l hl => (wf l hl).1)
  have hdrop1 : (encodeName labels ++ 0 :: t1 :: t2 :: c1 :: c2 :: rest).drop
      ((encodeName labels).length + 1) = t1 :: t2 :: c1 :: c2 :: rest := by
    have : encodeName labels ++ 0 :: t1 :: t2 :: c1 :: c2 :: rest =
        (encodeName labels ++ [0]) ++ (t1 :: t2 :: c1 :: c2 :: rest) := by simp
    rw [this, List.drop_left' (by simp)]
  have hdrop3 : (encodeName labels ++ 0 :: t1 :: t2 :: c1 :: c2 :: rest).drop
      ((encodeName labels).length + 3) = c1 :: c2 :: rest := by
    have : encodeName labels ++ 0 :: t1 :: t2 :: c1 :: c2 :: rest =
        (encodeName labels ++ [0, t1, t2]) ++ (c1 :: c2 :: rest) := by simp
    rw [this, List.drop_left' (by simp)]
  refine ⟨?_, ?_, rfl, rfl, rfl⟩ <;>
    simp only [parse_question, hname, Option.bind_eq_bind, Option.some_bind,
      hdrop1, hdrop3, parse_u16_cons]
  · cases hq : QType.from_u16 ((t1 <<< 8) ||| t2) with
    | none => simp
    | some qt =>
      cases hc : QClass.from_u16 ((c1 <<< 8) ||| c2) with
      | none => simp
      | some qc => simp
  · cases hq : QType.from_u16 ((t1 <<< 8) ||| t2) with
    | none =>
      have h1 := (QType_from_u16_eq_none_iff _).mp hq
      exact iff_of_true rfl (fun hmem => h1 hmem.1)
    | some qt =>
      simp only [Option.some_bind]
      cases hc : QClass.from_u16 ((c1 <<< 8) ||| c2) with
      | none =>
        have h2 := (QClass_from_u16_eq_none_iff _).mp hc
        exact iff_of_true rfl (fun hmem => h2 hmem.2)
      | some qc =>
        have h1 : ((t1 <<< 8) ||| t2) ∈ ([1, 2, 5, 6, 11, 12, 15, 28, 33, 255] : List Nat) := by
          by_contra hmem
          have hn := (QType_from_u16_eq_none_iff _).mpr hmem
          rw [hq] at hn
          simp at hn
        have h2 : ((c1 <<< 8) ||| c2) = 1 := by
          by_contra hne
          have hn := (QClass_from_u16_eq_none_iff _).mpr hne
          rw [hc] at hn
          simp at hn
        exact iff_of_false (by simp) (not_not_intro ⟨h1, h2⟩)

/-- Claim C6 witness: the name encoding the single label "com" followed
by type code 999 (bytes 3, 231) and class code 1 (bytes 0, 1): the decode
fails, since 999 is not a recognized type code. -/
theorem claim6_witness :
    (∀ l ∈ [[99, 111, 109]], 0 < List.length l ∧ List.length l ≤ 255) ∧
    ((parse_question (encodeName [[99, 111, 109]] ++ 0 :: 3 :: 231 :: 0 :: 1 :: [])).isSome = true ∧
     (parse_question (encodeName [[99, 111, 109]] ++ 0 :: 3 :: 231 :: 0 :: 1 :: []) = some none ↔
       ¬ (((3 <<< 8) ||| 231) ∈ ([1, 2, 5, 6, 11, 12, 15, 28, 33, 255] : List Nat) ∧
          ((0 <<< 8) ||| 1) = 1)) ∧
     QType.from_u16 1 = some QType.A ∧ QType.from_u16 28 = some QType.AAAA ∧
     QClass.from_u16 1 = some QClass.IN) :=
  ⟨by decide,
   claim6_type_class_gate [[99, 111, 109]] 3 231 0 1 [] (by decide)
     (by decide) (by decide) (by decide) (by decide)⟩

set_option maxRecDepth 4096 in
/-- Claim C7: for every byte, `parse_opcode` applies the mask
`0b01111000` without right-shifting and maps the masked value exactly as
the specification's table (0 ⇒ Query, 1 ⇒ InverseQuery, 2 ⇒ Status,
3 ⇒ Reserved, 4 ⇒ Notify, 5 ⇒ Update, else Invalid), here stated against
`specOpcodeMap`, the table transcribed from the spec. -/
theorem claim7_opcode_mapping :
    ∀ n, n < 256 → parse_opcode n = specOpcodeMap (n &&& 0b01111000) := by decide

/-- Claim C7 witness: the mapping instantiated at the byte 0b01110000. -/
theorem claim7_witness : 0b01110000 < 256 ∧
    parse_opcode 0b01110000 = specOpcodeMap (0b01110000 &&& 0b01111000) :=
  ⟨by decide, claim7_opcode_mapping 0b01110000 (by decide)⟩

/-- Claim C8: big-endian round-trip — `parse_u16` applied to the two
bytes `[v >>> 8, v &&& 0xFF]` returns `v`, and decoding the 12-byte
encoding of a header whose id and four counters have known 16-bit values
reproduces exactly those field values. -/
theorem claim8_roundtrip (v i b2 b3 qd an ns ar : Nat) (hv : v < 65536)
    (hi : i < 65536) (hqd : qd < 65536) (han : an < 65536) (hns : ns < 65536)
    (har : ar < 65536) :
    parse_u16 [v >>> 8, v &&& 0xFF] = some v ∧
    (Header.parse (encodeHeaderBytes i b2 b3 qd an ns ar)).map
        (fun h => (h.id, h.qdcount, h.ancount, h.nscount, h.arcount)) =
      some (i, qd, an, ns, ar) := by
  constructor
  · rw [parse_u16_cons, u16_roundtrip]
  · simp [Header.parse, encodeHeaderBytes, parse_u16_cons, u16_roundtrip]

/-- Claim C8 witness: the round-trip instantiated at id 0x1234, counters
1, 2, 3, 65535, flag bytes 0xAB and 0xCD, and v = 0xBEEF. -/
theorem claim8_witness :
    (0xBEEF < 65536 ∧ 0x1234 < 65536 ∧ 1 < 65536 ∧ 2 < 65536 ∧ 3 < 65536 ∧
     65535 < 65536) ∧
    parse_u16 [0xBEEF >>> 8, 0xBEEF &&& 0xFF] = some 0xBEEF ∧
    (Header.parse (encodeHeaderBytes 0x1234 0xAB 0xCD 1 2 3 65535)).map
        (fun h => (h.id, h.qdcount, h.ancount, h.nscount, h.arcount)) =
      some (0x1234, 1, 2, 3, 65535) :=
  ⟨by norm_num,
   claim8_roundtrip 0xBEEF 0x1234 0xAB 0xCD 1 2 3 65535 (by norm_num) (by norm_num)
     (by norm_num) (by norm_num) (by norm_num) (by norm_num)⟩

set_option maxRecDepth 4096 in
/-- Claim C9 (implicit): for every byte, the masked unshifted opcode
value is a multiple of 8, so `parse_opcode` returns only `Query` (exactly
when the masked value is 0) or `Invalid`; the `IQuery`, `Status`,
`Reserved`, `Notify` and `Update` arms are unreachable. -/
theorem claim9_opcode_degenerate :
    ∀ n, n < 256 →
      (n &&& 0b01111000) % 8 = 0 ∧
      (parse_opcode n = Opcode.Query ∨ parse_opcode n = Opcode.Invalid) ∧
      (parse_opcode n = Opcode.Query ↔ n &&& 0b01111000 = 0) := by decide

/-- Claim C9 witness: the degenerate behaviour instantiated at the byte
0b00001000 (wire opcode 1, which decodes to Invalid, not InverseQuery). -/
theorem claim9_witness : 0b00001000 < 256 ∧
    ((0b00001000 &&& 0b01111000) % 8 = 0 ∧
     (parse_opcode 0b00001000 = Opcode.Query ∨ parse_opcode 0b00001000 = Opcode.Invalid) ∧
     (parse_opcode 0b00001000 = Opcode.Query ↔ 0b00001000 &&& 0b01111000 = 0)) :=
  ⟨by decide, claim9_opcode_degenerate 0b00001000 (by decide)⟩

/-- Claim C10 (implicit): label decoding enforces no upper bound on the
label length below the byte maximum — for every length prefix from 1 to
255, provided that many bytes follow, `parse_question_part` accepts those
bytes as one label, decoded with the total lossy UTF-8 decoder (so it
never fails, whatever the byte content), even though DNS limits labels to
63 bytes. -/
theorem claim10_no_label_bound (len : Nat) (label rest : List Nat) (h1 : 1 ≤ len)
    (h2 : len ≤ 255) (hlen : label.length = len) :
    parse_question_part (len :: (label ++ rest)) = some (len, some (utf8Lossy label)) := by
  rw [parse_question_part_cons]
  have hne : ¬ len = 0 := by omega
  have hle : len ≤ (label ++ rest).length := by simp [List.length_append]; omega
  simp only [hne, if_false, hle, if_true]
  rw [List.take_left' hlen]

/-- Claim C10 witness: a 100-byte label consisting entirely of the byte
0xFF (invalid UTF-8 everywhere) is still accepted as one label. -/
theorem claim10_witness :
    1 ≤ 100 ∧ 100 ≤ 255 ∧ (List.replicate 100 255).length = 100 ∧
    parse_question_part (100 :: (List.replicate 100 255 ++ [])) =
      some (100, some (utf8Lossy (List.replicate 100 255))) :=
  ⟨by decide, by decide, by simp,
   claim10_no_label_bound 100 (List.replicate 100 255) [] (by decide) (by decide) (by simp)⟩

end Dns
